import Mathlib

/-!
Verification development for the Smart-Sortr triage engine.

The React frontend under frontend/src is embedded directly from its
source.  The Flask backend (app.py, model_manager.py) is not among the
available sources — only its frontend callers are — so the backend
operations (Session Arbiter, Action Stack, Folder Registry, Triage
Controller, Hash Ledger) are modelled from the specification, as marked
on each definition.
-/

namespace SmartSortr

/-- An image file held by a folder: a filename together with its content
bytes, abstracted as a natural number. -/
structure Image where
  name : String
  bytes : Nat
deriving Repr, DecidableEq

/-- Modelled from the spec: the Storage capability (file I/O primitives) is
missing from the sources; a storage is the list of folders, each a name
paired with the files it holds. -/
abbrev Storage := List (String × List Image)

/-- Modelled from the spec: Storage capability `list_images(folder)`. -/
def Storage.listImages (st : Storage) (folder : String) : List Image :=
  match st.find? (fun p => p.1 == folder) with
  | some p => p.2
  | none => []

/-- Whether a folder of this name exists in Storage. -/
def Storage.hasFolder (st : Storage) (folder : String) : Bool :=
  st.any (fun p => p.1 == folder)

/-- Modelled from the spec: Storage capability `move(src, dst, filename)` —
relocates one file; fails when the file is absent from the source folder
or the target folder does not exist. -/
def Storage.move (st : Storage) (src dst name : String) : Option Storage :=
  match (st.listImages src).find? (fun i => i.name == name) with
  | none => none
  | some img =>
    if st.hasFolder dst then
      some (st.map (fun p =>
        if p.1 == src then (p.1, p.2.filter (fun i => i.name != name))
        else if p.1 == dst then (p.1, p.2 ++ [img])
        else p))
    else none

/-- Modelled from the spec: Storage capability `hash(bytes)`, a
deterministic digest of the image bytes; determinism is the only property
the engine relies on. -/
def Storage.hash (bytes : Nat) : Nat := bytes

/-- A pending action: move `image_name` from "input" to `target_folder`. -/
structure PendingAction where
  image_name : String
  target_folder : String
deriving Repr, DecidableEq

namespace ActionStack

/-- Modelled from the spec: the Action Stack is kept oldest-first; `push`
appends the new action at the end (the top). -/
def push (st : List PendingAction) (a : PendingAction) : List PendingAction :=
  st ++ [a]

/-- Modelled from the spec: `pop` removes and returns the most recently
pushed entry; `none` models the EmptyStack failure. -/
def pop (st : List PendingAction) : Option (PendingAction × List PendingAction) :=
  match st.getLast? with
  | none => none
  | some a => some (a, st.dropLast)

/-- Modelled from the spec: `peek_all` lists the pending actions oldest
first, read-only. -/
def peekAll (st : List PendingAction) : List PendingAction := st

end ActionStack

/-- The error taxonomy of the operation surface (spec section 6). -/
inductive CoreError where
  | SessionBusy
  | SessionExpired
  | Unauthorized
  | FolderExists
  | ReservedName
  | InvalidName
  | FolderNotFound
  | FolderNotDeletable
  | ReservedTarget
  | AlreadyPending
  | ImageNotFound
  | EmptyStack
  | NothingToCommit
  | NoImageAvailable
  | TrainingFailed
deriving Repr, DecidableEq

/-- The engine state: the Action Stack (oldest first), the Storage view,
and the Hash Ledger (content hash paired with the trained-on category). -/
structure CoreState where
  stack : List PendingAction
  storage : Storage
  ledger : List (Nat × String)
deriving Repr, DecidableEq

/-- Derived folder field `is_empty`: Storage reports zero files. -/
def isEmptyFolder (st : Storage) (f : String) : Bool :=
  (st.listImages f).isEmpty

/-- Derived folder field `pending_count`: Action-Stack entries whose
target folder equals this folder. -/
def pendingCount (stack : List PendingAction) (f : String) : Nat :=
  (stack.filter (fun a => a.target_folder == f)).length

/-- Frontend Home.jsx `fetchFolders`: the derived flag
`can_delete = !!(f.is_empty && f.has_pending === 0)`. -/
def canDeleteFlag (is_empty : Bool) (has_pending : Nat) : Bool :=
  is_empty && (has_pending == 0)

/-- Modelled from the spec: `delete_folder(name)` (section 4.2) —
FolderNotFound when the folder is absent, FolderNotDeletable unless the
folder is empty and unreferenced by pending actions; on success the
directory is removed from Storage. -/
def deleteFolder (s : CoreState) (f : String) : Except CoreError CoreState :=
  if s.storage.hasFolder f then
    if isEmptyFolder s.storage f && pendingCount s.stack f == 0 then
      .ok { s with storage := s.storage.filter (fun p => p.1 != f) }
    else .error .FolderNotDeletable
  else .error .FolderNotFound

/-- The candidate filenames for the current image: the files of "input"
whose names are not present in the Action Stack. -/
def candidates (s : CoreState) : List String :=
  ((s.storage.listImages "input").map Image.name).filter
    (fun n => !(s.stack.any (fun a => a.image_name == n)))

/-- The lexicographically least name in a list, if any; the fixed
deterministic order of the spec's CurrentImage. -/
def leastName : List String → Option String
  | [] => none
  | n :: rest =>
    match leastName rest with
    | none => some n
    | some m => some (if n ≤ m then n else m)

/-- Modelled from the spec: `current_image` — the next file of "input" in
fixed lexicographic order, skipping every filename present in the Action
Stack, recomputed from the state on every request; NoImageAvailable when
no candidate remains. -/
def currentImage (s : CoreState) : Except CoreError String :=
  match leastName (candidates s) with
  | some n => .ok n
  | none => .error .NoImageAvailable

/-- Modelled from the spec: Action Stack `push(image_name, target_folder)`
(section 4.3) with its validations — FolderNotFound for an unknown target,
ReservedTarget for "input", AlreadyPending for a queued image,
ImageNotFound when the image is not in "input"; on success appends to the
top of the stack. -/
def pushAction (s : CoreState) (img tgt : String) : Except CoreError CoreState :=
  if !(s.storage.hasFolder tgt) then .error .FolderNotFound
  else if tgt == "input" then .error .ReservedTarget
  else if s.stack.any (fun a => a.image_name == img) then .error .AlreadyPending
  else if !((s.storage.listImages "input").any (fun i => i.name == img)) then
    .error .ImageNotFound
  else .ok { s with stack := ActionStack.push s.stack ⟨img, tgt⟩ }

/-- Modelled from the spec: `assign` is a thin wrapper over Action Stack
push. -/
def assign (s : CoreState) (img tgt : String) : Except CoreError CoreState :=
  pushAction s img tgt

/-- Modelled from the spec: `pop` / `undo` — removes and returns the most
recently pushed action with no side effect on Storage; EmptyStack when
nothing is pending. -/
def undo (s : CoreState) : Except CoreError (PendingAction × CoreState) :=
  match ActionStack.pop s.stack with
  | none => .error .EmptyStack
  | some (a, rest) => .ok (a, { s with stack := rest })

/-- A live session of the Arbiter: the issued token and the time of the
last authenticated request. -/
structure Session where
  token : Nat
  last_heartbeat : Nat
deriving Repr, DecidableEq

/-- The Session Arbiter's state: at most one live session (an Option), and
a counter from which fresh tokens are drawn. -/
structure ArbiterState where
  session : Option Session
  next_token : Nat
deriving Repr, DecidableEq

/-- Modelled from the spec: `acquire()` (section 4.1) — grants a fresh
token only when no session is active or the active one has exceeded the
heartbeat timeout since its last heartbeat; otherwise fails with
SessionBusy and leaves the state unchanged. -/
def acquire (timeout now : Nat) (s : ArbiterState) :
    Except CoreError Nat × ArbiterState :=
  match s.session with
  | none =>
    (.ok s.next_token, ⟨some ⟨s.next_token, now⟩, s.next_token + 1⟩)
  | some sess =>
    if now - sess.last_heartbeat > timeout then
      (.ok s.next_token, ⟨some ⟨s.next_token, now⟩, s.next_token + 1⟩)
    else (.error .SessionBusy, s)

/-- Modelled from the spec: `heartbeat(token)` — refreshes the session's
last heartbeat when the token matches the active session, and fails with
SessionExpired otherwise. -/
def heartbeat (tok now : Nat) (s : ArbiterState) :
    Except CoreError Nat × ArbiterState :=
  match s.session with
  | some sess =>
    if sess.token == tok then (.ok tok, ⟨some ⟨tok, now⟩, s.next_token⟩)
    else (.error .SessionExpired, s)
  | none => (.error .SessionExpired, s)

/-- The per-action outcome reported by commit: the action was applied as a
file move, or recorded as failed with a reason. -/
inductive ActionResult where
  | moved (a : PendingAction)
  | failed (a : PendingAction) (reason : String)
deriving Repr, DecidableEq

/-- The action an outcome reports about. -/
def ActionResult.action : ActionResult → PendingAction
  | .moved a => a
  | .failed a _ => a

/-- Whether the outcome is a successful move. -/
def ActionResult.isMoved : ActionResult → Bool
  | .moved _ => true
  | .failed _ _ => false

/-- Modelled from the spec: step 3 of `commit()` — apply the drained
actions oldest-first through Storage.move; a failing move is recorded as
failed(reason) and processing continues to the next action, successes are
kept.  Returns the per-action results, the final storage, and the
(hash, category) pairs of the images that were actually moved. -/
def commitMoves : List PendingAction → Storage →
    List ActionResult × Storage × List (Nat × String)
  | [], st => ([], st, [])
  | a :: rest, st =>
    match (st.listImages "input").find? (fun i => i.name == a.image_name),
          st.move "input" a.target_folder a.image_name with
    | some img, some st2 =>
      let r := commitMoves rest st2
      (.moved a :: r.1, r.2.1, (Storage.hash img.bytes, a.target_folder) :: r.2.2)
    | _, _ =>
      let r := commitMoves rest st
      (.failed a "move failed" :: r.1, r.2.1, r.2.2)

/-- The structured result of a commit: the per-action outcome list and
whether the incremental retrain succeeded. -/
structure CommitResult where
  results : List ActionResult
  retrainOk : Bool
deriving Repr, DecidableEq

/-- Modelled from the spec: `commit()` (section 4.4) — fails fast with
NothingToCommit on an empty stack with no state change; otherwise drains
the stack, applies every action oldest-first with per-action failure
isolation, updates the Hash Ledger with the pairs of the moved images
regardless of retrain success (`fitOk`), and returns the per-action
results; the drained actions are never re-inserted. -/
def commit (fitOk : Bool) (s : CoreState) :
    Except CoreError CommitResult × CoreState :=
  if s.stack.isEmpty then (.error .NothingToCommit, s)
  else
    let r := commitMoves s.stack s.storage
    (.ok ⟨r.1, fitOk⟩,
     { stack := [], storage := r.2.1, ledger := s.ledger ++ r.2.2 })

/-- Modelled from the spec: `classify(image_name)` (section 4.4) — fails
with ImageNotFound when the name is not resolvable via current_image's
selection rule, otherwise delegates to Classifier.predict (the external
capability, a parameter here) and returns its output unmodified; the state
component is returned untouched (side-effect-free). -/
def classify (predict : String → List (String × ℚ)) (s : CoreState)
    (name : String) : Except CoreError (List (String × ℚ)) × CoreState :=
  match currentImage s with
  | .ok n => if n == name then (.ok (predict name), s) else (.error .ImageNotFound, s)
  | .error _ => (.error .ImageNotFound, s)

/-- Modelled from the spec: the labeled scan of section 4.5 — the
(hash, category) pair of every image in the category folders (everything
except "input"). -/
def scanLabels (st : Storage) : List (Nat × String) :=
  (st.filter (fun p => p.1 != "input")).flatMap
    (fun p => p.2.map (fun i => (Storage.hash i.bytes, p.1)))

/-- Modelled from the spec: `initialize()` (section 4.5) — compares the
labeled scan with the Hash Ledger and trains on the full labeled set when
the ledger does not match it (in particular when the ledger is empty while
labeled images exist — the stale case), otherwise skips training; on
training, the ledger is refreshed to the scan (section 3, TrainingRecord
lifecycle).  Returns the new state and whether a training call was made. -/
def initModel (s : CoreState) : CoreState × Bool :=
  if s.ledger = scanLabels s.storage then (s, false)
  else ({ s with ledger := scanLabels s.storage }, true)

/-- Frontend ProcessPanel.jsx: the three loading props that drive the
Commit and Undo buttons. -/
structure ProcessPanelProps where
  loadingCommit : Bool
  loadingInit : Bool
  loadingPrediction : Bool
deriving Repr, DecidableEq

/-- ProcessPanel.jsx Commit button:
disabled when loadingCommit, loadingInit or loadingPrediction holds. -/
def commitDisabled (p : ProcessPanelProps) : Bool :=
  p.loadingCommit || p.loadingInit || p.loadingPrediction

/-- ProcessPanel.jsx Undo button: the same disabling condition. -/
def undoDisabled (p : ProcessPanelProps) : Bool :=
  p.loadingCommit || p.loadingInit || p.loadingPrediction

/-! Sample states used by the witnesses. -/

/-- A small concrete engine state: one unsorted image and two category
folders. -/
def sampleReady : CoreState :=
  ⟨[], [("input", [⟨"a.jpg", 10⟩]), ("cats", []), ("dogs", [])], []⟩

/-- The state sampleReady after queueing a.jpg for cats. -/
def sampleAssigned : CoreState :=
  ⟨[⟨"a.jpg", "cats"⟩], [("input", [⟨"a.jpg", 10⟩]), ("cats", []), ("dogs", [])], []⟩

/-! Helper lemmas. -/

/-- Folding pushes onto a stack appends the actions in order. -/
lemma foldl_push_eq (l st : List PendingAction) :
    List.foldl ActionStack.push st l = st ++ l := by
  induction l generalizing st with
  | nil => simp
  | cons x xs ih => simp [ActionStack.push, ih, List.append_assoc]

/-- A move whose file is not found in the source folder fails. -/
lemma move_eq_none_of_find_none (st : Storage) (src dst name : String)
    (h : (st.listImages src).find? (fun i => i.name == name) = none) :
    st.move src dst name = none := by
  simp [Storage.move, h]

/-- The per-action results of commitMoves report exactly the drained
actions, in order. -/
lemma commitMoves_results_map (l : List PendingAction) (st : Storage) :
    (commitMoves l st).1.map ActionResult.action = l := by
  induction l generalizing st with
  | nil => simp [commitMoves]
  | cons a rest ih =>
    unfold commitMoves
    cases hf : (st.listImages "input").find? (fun i => i.name == a.image_name) with
    | none =>
      simp [hf, move_eq_none_of_find_none st "input" a.target_folder a.image_name hf,
        ActionResult.action, ih]
    | some img =>
      cases hm : st.move "input" a.target_folder a.image_name with
      | none => simp [hf, hm, ActionResult.action, ih]
      | some st2 => simp [hf, hm, ActionResult.action, ih]

/-- Every drained action is reported either as moved or as failed. -/
lemma commitMoves_covers (l : List PendingAction) (st : Storage) :
    ∀ a ∈ l, ActionResult.moved a ∈ (commitMoves l st).1 ∨
      ∃ r, ActionResult.failed a r ∈ (commitMoves l st).1 := by
  intro a ha
  rw [← commitMoves_results_map l st] at ha
  obtain ⟨res, hres, hact⟩ := List.mem_map.mp ha
  cases res with
  | moved b =>
    simp only [ActionResult.action] at hact
    subst hact
    exact .inl hres
  | failed b r =>
    simp only [ActionResult.action] at hact
    subst hact
    exact .inr ⟨r, hres⟩

/-- The storage commitMoves leaves behind is the oldest-first fold of the
individual moves, a failing move leaving storage untouched: successes are
kept and never rolled back. -/
lemma commitMoves_storage (l : List PendingAction) (st : Storage) :
    (commitMoves l st).2.1 = l.foldl
      (fun st a => (st.move "input" a.target_folder a.image_name).getD st) st := by
  induction l generalizing st with
  | nil => simp [commitMoves]
  | cons a rest ih =>
    unfold commitMoves
    cases hf : (st.listImages "input").find? (fun i => i.name == a.image_name) with
    | none =>
      simp [hf, move_eq_none_of_find_none st "input" a.target_folder a.image_name hf, ih]
    | some img =>
      cases hm : st.move "input" a.target_folder a.image_name with
      | none => simp [hf, hm, ih]
      | some st2 => simp [hf, hm, ih]

/-- commitMoves produces one ledger pair per successful move. -/
lemma commitMoves_pairs_length (l : List PendingAction) (st : Storage) :
    (commitMoves l st).2.2.length =
      (commitMoves l st).1.countP ActionResult.isMoved := by
  induction l generalizing st with
  | nil => simp [commitMoves]
  | cons a rest ih =>
    unfold commitMoves
    cases hf : (st.listImages "input").find? (fun i => i.name == a.image_name) with
    | none =>
      simp [hf, move_eq_none_of_find_none st "input" a.target_folder a.image_name hf,
        ih, List.countP_cons, ActionResult.isMoved]
    | some img =>
      cases hm : st.move "input" a.target_folder a.image_name with
      | none => simp [hf, hm, ih, List.countP_cons, ActionResult.isMoved]
      | some st2 => simp [hf, hm, ih, List.countP_cons, ActionResult.isMoved]

/-- Every ledger pair commitMoves produces comes from an action that was
actually moved. -/
lemma commitMoves_pairs_sources (l : List PendingAction) (st : Storage) :
    ∀ p ∈ (commitMoves l st).2.2, ∃ a,
      ActionResult.moved a ∈ (commitMoves l st).1 ∧ p.2 = a.target_folder := by
  induction l generalizing st with
  | nil => simp [commitMoves]
  | cons a rest ih =>
    unfold commitMoves
    cases hf : (st.listImages "input").find? (fun i => i.name == a.image_name) with
    | none =>
      have hm := move_eq_none_of_find_none st "input" a.target_folder a.image_name hf
      intro p hp
      simp only [hf, hm] at hp ⊢
      obtain ⟨b, hb, hb2⟩ := ih st p hp
      exact ⟨b, List.mem_cons_of_mem _ hb, hb2⟩
    | some img =>
      cases hm : st.move "input" a.target_folder a.image_name with
      | none =>
        intro p hp
        simp only [hf, hm] at hp ⊢
        obtain ⟨b, hb, hb2⟩ := ih st p hp
        exact ⟨b, List.mem_cons_of_mem _ hb, hb2⟩
      | some st2 =>
        intro p hp
        simp only [hf, hm, List.mem_cons] at hp ⊢
        rcases hp with rfl | hp
        · exact ⟨a, .inl rfl, rfl⟩
        · obtain ⟨b, hb, hb2⟩ := ih st2 p hp
          exact ⟨b, .inr hb, hb2⟩

/-- The least name of a list is a member of it. -/
lemma leastName_mem (l : List String) (n : String) (h : leastName l = some n) :
    n ∈ l := by
  induction l generalizing n with
  | nil => simp [leastName] at h
  | cons x xs ih =>
    unfold leastName at h
    cases hr : leastName xs with
    | none =>
      rw [hr] at h
      simp only [Option.some.injEq] at h
      subst h
      exact List.mem_cons_self x xs
    | some m =>
      rw [hr] at h
      simp only [Option.some.injEq] at h
      by_cases hx : x ≤ m
      · rw [if_pos hx] at h
        subst h
        exact List.mem_cons_self x xs
      · rw [if_neg hx] at h
        subst h
        exact List.mem_cons_of_mem x (ih m hr)

/-! Theorems for the claims. -/

/-- C1: while the active session's last heartbeat is within the heartbeat
timeout, any acquire by a second caller fails with SessionBusy and the
existing session is unchanged; once the timeout has elapsed with no
heartbeat, an acquire succeeds and issues a new token. -/
theorem acquire_single_live_session (timeout now : Nat) (s : ArbiterState)
    (sess : Session) (hs : s.session = some sess)
    (hfresh : sess.token < s.next_token) :
    (now - sess.last_heartbeat ≤ timeout →
      acquire timeout now s = (.error .SessionBusy, s)) ∧
    (timeout < now - sess.last_heartbeat →
      acquire timeout now s =
        (.ok s.next_token, ⟨some ⟨s.next_token, now⟩, s.next_token + 1⟩) ∧
      s.next_token ≠ sess.token) := by
  unfold acquire
  rw [hs]
  dsimp only
  constructor
  · intro h
    rw [if_neg (by omega)]
  · intro h
    exact ⟨by rw [if_pos (by omega)], by omega⟩

/-- Witness for C1: a second acquire at time 100 against a session whose
heartbeat was at 90 is busy under a timeout of 30; at time 200 the stale
session is superseded by a fresh token. -/
theorem acquire_single_live_session_witness :
    acquire 30 100 ⟨some ⟨5, 90⟩, 6⟩ = (.error .SessionBusy, ⟨some ⟨5, 90⟩, 6⟩) ∧
    (acquire 30 200 ⟨some ⟨5, 90⟩, 6⟩ = (.ok 6, ⟨some ⟨6, 200⟩, 7⟩) ∧
      (6 : Nat) ≠ 5) := by
  constructor
  · exact (acquire_single_live_session 30 100 ⟨some ⟨5, 90⟩, 6⟩ ⟨5, 90⟩ rfl
      (by decide)).1 (by decide)
  · exact (acquire_single_live_session 30 200 ⟨some ⟨5, 90⟩, 6⟩ ⟨5, 90⟩ rfl
      (by decide)).2 (by decide)

/-- C3: the Action Stack is strictly LIFO — push appends the new action at
the end (top), pop and undo remove and return exactly the most recently
pushed entry, and the pending-action listing returns the actions in
insertion order, oldest first. -/
theorem action_stack_lifo (st l : List PendingAction) (a : PendingAction)
    (s : CoreState) (img tgt : String) :
    ActionStack.push st a = st ++ [a] ∧
    ActionStack.pop (ActionStack.push st a) = some (a, st) ∧
    ActionStack.peekAll (List.foldl ActionStack.push st l) =
      ActionStack.peekAll st ++ l ∧
    (∀ s2, pushAction s img tgt = .ok s2 →
      s2.stack = s.stack ++ [⟨img, tgt⟩] ∧
      undo s2 = .ok (⟨img, tgt⟩, s)) := by
  refine ⟨rfl, ?_, ?_, ?_⟩
  · simp [ActionStack.pop, ActionStack.push]
  · simp [ActionStack.peekAll, foldl_push_eq]
  · intro s2 h
    unfold pushAction at h
    split_ifs at h
    cases h
    constructor
    · rfl
    · simp [undo, ActionStack.pop, ActionStack.push]

/-- Witness for C3: pushing a.jpg onto the sample state yields the expected
stack and undo reverses it exactly. -/
theorem action_stack_lifo_witness :
    pushAction sampleReady "a.jpg" "cats" = .ok sampleAssigned ∧
    (sampleAssigned.stack = sampleReady.stack ++ [⟨"a.jpg", "cats"⟩] ∧
      undo sampleAssigned = .ok (⟨"a.jpg", "cats"⟩, sampleReady)) :=
  ⟨rfl, (action_stack_lifo [] [] ⟨"x", "y"⟩ sampleReady "a.jpg" "cats").2.2.2
    sampleAssigned rfl⟩

/-- C2: for every non-empty Action Stack, commit reports a per-action
result for every action present before the call — each is applied as a
move or recorded as failed(reason) — the stack is empty afterwards
regardless of per-action outcomes, the final storage is the oldest-first
fold of the individual moves (a failure skips its action and never rolls
back earlier successes), and no drained action is re-inserted. -/
theorem commit_partial_failure (fitOk : Bool) (s : CoreState)
    (h : s.stack ≠ []) :
    ∃ res s2,
      commit fitOk s = (.ok res, s2) ∧
      s2.stack = [] ∧
      res.results.map ActionResult.action = s.stack ∧
      (∀ a ∈ s.stack, ActionResult.moved a ∈ res.results ∨
        ∃ r, ActionResult.failed a r ∈ res.results) ∧
      s2.storage = s.stack.foldl
        (fun st a => (st.move "input" a.target_folder a.image_name).getD st)
        s.storage := by
  have hne : s.stack.isEmpty = false := by
    cases hs : s.stack with
    | nil => exact absurd hs h
    | cons a l => rfl
  refine ⟨⟨(commitMoves s.stack s.storage).1, fitOk⟩,
    ⟨[], (commitMoves s.stack s.storage).2.1,
      s.ledger ++ (commitMoves s.stack s.storage).2.2⟩, ?_, rfl, ?_, ?_, ?_⟩
  · simp [commit, hne]
  · exact commitMoves_results_map s.stack s.storage
  · exact commitMoves_covers s.stack s.storage
  · exact commitMoves_storage s.stack s.storage

/-- The two-action sample state of the spec's commit scenario: a.jpg is
still in "input" but b.jpg was removed externally after being queued. -/
def sampleTwoPending : CoreState :=
  ⟨[⟨"a.jpg", "cats"⟩, ⟨"b.jpg", "dogs"⟩],
   [("input", [⟨"a.jpg", 10⟩]), ("cats", []), ("dogs", [])], []⟩

/-- The commit outcome of the two-action sample: one success, one failure. -/
def sampleCommitResult : CommitResult :=
  ⟨[.moved ⟨"a.jpg", "cats"⟩, .failed ⟨"b.jpg", "dogs"⟩ "move failed"], true⟩

/-- The engine state after committing the two-action sample. -/
def sampleCommitted : CoreState :=
  ⟨[], [("input", []), ("cats", [⟨"a.jpg", 10⟩]), ("dogs", [])], [(10, "cats")]⟩

/-- Witness for C2: committing the two-action sample drains the stack and
reports both actions. -/
theorem commit_partial_failure_witness :
    sampleTwoPending.stack ≠ [] ∧
    ∃ res s2,
      commit true sampleTwoPending = (.ok res, s2) ∧
      s2.stack = [] ∧
      res.results.map ActionResult.action = sampleTwoPending.stack ∧
      (∀ a ∈ sampleTwoPending.stack, ActionResult.moved a ∈ res.results ∨
        ∃ r, ActionResult.failed a r ∈ res.results) ∧
      s2.storage = sampleTwoPending.stack.foldl
        (fun st a => (st.move "input" a.target_folder a.image_name).getD st)
        sampleTwoPending.storage :=
  ⟨by simp [sampleTwoPending], commit_partial_failure true sampleTwoPending
    (by simp [sampleTwoPending])⟩

/-- C6: the Hash Ledger gains an entry only for images whose move
succeeded during commit — the ledger grows by exactly the number of
successful moves, and every new entry's category comes from a moved
action. -/
theorem ledger_gains_only_moved (fitOk : Bool) (s : CoreState)
    (res : CommitResult) (s2 : CoreState)
    (h : commit fitOk s = (.ok res, s2)) :
    s2.ledger.length =
      s.ledger.length + res.results.countP ActionResult.isMoved ∧
    ∀ p ∈ s2.ledger, p ∈ s.ledger ∨
      ∃ a, ActionResult.moved a ∈ res.results ∧ p.2 = a.target_folder := by
  unfold commit at h
  by_cases he : s.stack.isEmpty
  · rw [if_pos he] at h
    simp at h
  · rw [if_neg he] at h
    rw [Prod.mk.injEq] at h
    obtain ⟨hres, hs2⟩ := h
    rw [Except.ok.injEq] at hres
    subst hres
    subst hs2
    constructor
    · simp [commitMoves_pairs_length]
    · intro p hp
      rcases List.mem_append.mp hp with hold | hnew
      · exact .inl hold
      · exact .inr (commitMoves_pairs_sources s.stack s.storage p hnew)

/-- Witness for C6: the two-action commit with one success and one failure
makes the ledger gain exactly one entry. -/
theorem ledger_gains_only_moved_witness :
    commit true sampleTwoPending = (.ok sampleCommitResult, sampleCommitted) ∧
    sampleCommitted.ledger.length =
      sampleTwoPending.ledger.length +
        sampleCommitResult.results.countP ActionResult.isMoved :=
  ⟨rfl, (ledger_gains_only_moved true sampleTwoPending sampleCommitResult
    sampleCommitted rfl).1⟩

/-- C4: current_image selects deterministically from the "input" folder,
skipping filenames on the Action Stack — after a successful assign of the
current image it is no longer returned (NoImageAvailable when it was the
only candidate), and undo returns the undone action and restores the
previous state unchanged, so the image is current again with no Storage
change having occurred. -/
theorem current_image_assign_undo (s : CoreState) (img f : String)
    (s2 : CoreState) (hcur : currentImage s = .ok img)
    (hassign : assign s img f = .ok s2) :
    currentImage s2 ≠ .ok img ∧
    (candidates s2 = [] → currentImage s2 = .error .NoImageAvailable) ∧
    undo s2 = .ok (⟨img, f⟩, s) ∧
    s2.storage = s.storage ∧
    (∀ p s3, undo s2 = .ok (p, s3) → currentImage s3 = .ok img) := by
  unfold assign pushAction at hassign
  split_ifs at hassign
  cases hassign
  have hundo : undo { s with stack := ActionStack.push s.stack ⟨img, f⟩ } =
      .ok (⟨img, f⟩, s) := by
    simp [undo, ActionStack.pop, ActionStack.push]
  refine ⟨?_, ?_, hundo, rfl, ?_⟩
  · intro hc
    unfold currentImage at hc
    cases hl : leastName (candidates { s with stack := ActionStack.push s.stack ⟨img, f⟩ }) with
    | none => rw [hl] at hc; simp at hc
    | some n =>
      rw [hl] at hc
      simp only [Except.ok.injEq] at hc
      subst hc
      have hmem := leastName_mem _ _ hl
      have hp := (List.mem_filter.mp hmem).2
      simp only [Bool.not_eq_eq_eq_not, Bool.not_true, List.any_eq_false] at hp
      exact absurd (by simp) (hp ⟨n, f⟩
        (by simp [ActionStack.push]))
  · intro h
    simp [currentImage, h, leastName]
  · intro p s3 hu
    rw [hundo] at hu
    simp only [Except.ok.injEq, Prod.mk.injEq] at hu
    obtain ⟨-, hs3⟩ := hu
    subst hs3
    exact hcur

/-- Witness for C4: the spec scenario — input holds only a.jpg, folders
cats and dogs exist; after assigning a.jpg to cats no image is available,
and undo makes a.jpg current again. -/
theorem current_image_assign_undo_witness :
    currentImage sampleReady = .ok "a.jpg" ∧
    assign sampleReady "a.jpg" "cats" = .ok sampleAssigned ∧
    currentImage sampleAssigned = .error .NoImageAvailable ∧
    (currentImage sampleAssigned ≠ .ok "a.jpg" ∧
      (candidates sampleAssigned = [] →
        currentImage sampleAssigned = .error .NoImageAvailable) ∧
      undo sampleAssigned = .ok (⟨"a.jpg", "cats"⟩, sampleReady) ∧
      sampleAssigned.storage = sampleReady.storage ∧
      (∀ p s3, undo sampleAssigned = .ok (p, s3) →
        currentImage s3 = .ok "a.jpg")) :=
  ⟨rfl, rfl, rfl,
    current_image_assign_undo sampleReady "a.jpg" "cats" sampleAssigned rfl rfl⟩

/-- C5: delete_folder succeeds exactly when the folder is empty in Storage
and no pending action references it, failing with FolderNotDeletable
otherwise, and the derived can_delete flag computed by the frontend equals
is_empty && pending_count == 0. -/
theorem delete_folder_iff_can_delete (s : CoreState) (f : String)
    (hf : s.storage.hasFolder f = true) :
    ((∃ s2, deleteFolder s f = .ok s2) ↔
      canDeleteFlag (isEmptyFolder s.storage f) (pendingCount s.stack f) = true) ∧
    (canDeleteFlag (isEmptyFolder s.storage f) (pendingCount s.stack f) = false →
      deleteFolder s f = .error .FolderNotDeletable) := by
  unfold deleteFolder canDeleteFlag
  rw [if_pos hf]
  constructor
  · constructor
    · rintro ⟨s2, h2⟩
      by_cases hc : (isEmptyFolder s.storage f && pendingCount s.stack f == 0) = true
      · exact hc
      · rw [if_neg hc] at h2
        cases h2
    · intro hc
      rw [if_pos hc]
      exact ⟨_, rfl⟩
  · intro hc
    rw [if_neg]
    rw [hc]
    simp

/-- Witness for C5: the empty unreferenced folder cats of the sample state
is deletable and its can_delete flag is true. -/
theorem delete_folder_iff_can_delete_witness :
    sampleReady.storage.hasFolder "cats" = true ∧
    ((∃ s2, deleteFolder sampleReady "cats" = .ok s2) ↔
      canDeleteFlag (isEmptyFolder sampleReady.storage "cats")
        (pendingCount sampleReady.stack "cats") = true) :=
  ⟨rfl, (delete_folder_iff_can_delete sampleReady "cats" rfl).1⟩

/-- C8: for an image name resolvable by current_image's selection rule,
classify passes the Classifier's prediction output through unmodified with
no side effect, its confidences staying in the interval zero to one when
the Classifier's do; for a name not so resolvable it fails with
ImageNotFound. -/
theorem classify_contract (predict : String → List (String × ℚ))
    (s : CoreState) (name : String)
    (hp : ∀ p ∈ predict name, 0 ≤ p.2 ∧ p.2 ≤ 1) :
    (currentImage s = .ok name →
      classify predict s name = (.ok (predict name), s) ∧
      ∀ out, (classify predict s name).1 = .ok out →
        ∀ p ∈ out, 0 ≤ p.2 ∧ p.2 ≤ 1) ∧
    (currentImage s ≠ .ok name →
      classify predict s name = (.error .ImageNotFound, s)) := by
  constructor
  · intro hc
    have he : classify predict s name = (.ok (predict name), s) := by
      unfold classify
      rw [hc]
      simp
    refine ⟨he, ?_⟩
    intro out hout
    rw [he] at hout
    simp only [Except.ok.injEq] at hout
    subst hout
    exact hp
  · intro hc
    unfold classify
    cases hcur : currentImage s with
    | error e => simp
    | ok n =>
      have hne : n ≠ name := fun hn => hc (hn ▸ hcur)
      simp [hne]

/-- Witness for C8: classifying the current image a.jpg of the sample
state with a concrete classifier output. -/
theorem classify_contract_witness :
    (∀ p ∈ [("cats", (1 : ℚ)/2), ("dogs", (1 : ℚ)/2)], 0 ≤ p.2 ∧ p.2 ≤ 1) ∧
    (currentImage sampleReady = .ok "a.jpg" →
      classify (fun _ => [("cats", (1 : ℚ)/2), ("dogs", (1 : ℚ)/2)])
          sampleReady "a.jpg" =
        (.ok [("cats", (1 : ℚ)/2), ("dogs", (1 : ℚ)/2)], sampleReady) ∧
      ∀ out, (classify (fun _ => [("cats", (1 : ℚ)/2), ("dogs", (1 : ℚ)/2)])
          sampleReady "a.jpg").1 = .ok out →
        ∀ p ∈ out, 0 ≤ p.2 ∧ p.2 ≤ 1) :=
  ⟨by norm_num,
    (classify_contract (fun _ => [("cats", (1 : ℚ)/2), ("dogs", (1 : ℚ)/2)])
      sampleReady "a.jpg" (by norm_num)).1⟩

/-- C7: commit on an empty Action Stack fails with NothingToCommit and
changes no state. -/
theorem commit_empty_nothing_to_commit (fitOk : Bool) (s : CoreState)
    (h : s.stack = []) :
    commit fitOk s = (.error .NothingToCommit, s) := by
  simp [commit, h]

/-- Witness for C7: the sample state with nothing pending. -/
theorem commit_empty_nothing_to_commit_witness :
    commit true sampleReady = (.error .NothingToCommit, sampleReady) :=
  commit_empty_nothing_to_commit true sampleReady rfl

/-- C9: initialization is idempotent — a second call with no filesystem
change between the calls performs no additional training and leaves the
state as the first call left it. -/
theorem init_model_idempotent (s : CoreState) :
    (initModel (initModel s).1).2 = false ∧
    (initModel (initModel s).1).1 = (initModel s).1 := by
  by_cases h : s.ledger = scanLabels s.storage
  · simp [initModel, h]
  · simp [initModel, h]

/-- C10: in ProcessPanel, the Commit button and the Undo button are
disabled exactly when at least one of loadingCommit, loadingInit or
loadingPrediction is true. -/
theorem process_panel_buttons_disabled (p : ProcessPanelProps) :
    (commitDisabled p = true ↔
      (p.loadingCommit = true ∨ p.loadingInit = true ∨
        p.loadingPrediction = true)) ∧
    (undoDisabled p = true ↔
      (p.loadingCommit = true ∨ p.loadingInit = true ∨
        p.loadingPrediction = true)) := by
  simp [commitDisabled, undoDisabled, Bool.or_eq_true, or_assoc]

end SmartSortr
